import Mathlib

/-!
Verification of the alpha-lock-profit-engine core against its specification.

The development shallowly embeds the three algorithmic components of the
repository — the feature/regime engine (src/services/FeatureEngine.ts), the
bandit orchestrator (AIOrchestrator) and the profit-locking position engine
(src/services/ProfitLockingEngine.ts) — as pure Lean functions.  Prices,
volumes and PnL are modelled as exact rationals; quantities the source derives
through square roots, exponentials or logarithms are modelled as real numbers
(the idealisation of the source's floating point).  JavaScript objects used as
dictionaries become functions `String → Option _` (so that the distinction
between an absent key and an empty buffer is preserved), and the engine's
`Map` of live positions becomes an association list in insertion order.
Randomness (`Math.random()`) is externalised into an explicit stream of
rationals consumed in call order, and the unbounded rejection loops of the
Gamma sampler take an explicit fuel argument.
-/

namespace AlphaLock

/-- Pointwise update of a string-keyed dictionary, the model of
`obj[key] = value` on a JavaScript object. -/
def setF {α : Type} (f : String → α) (k : String) (v : α) : String → α :=
  fun s => if s = k then v else f s

/-! ## FeatureEngine: data model (src/services/FeatureEngine.ts, WebSocketDataService types) -/

/-- Ticker update delivered by the market-data feed. -/
structure TickerData where
  price : ℚ
  change24h : ℚ
  volume : ℚ
  timestamp : ℕ
deriving Repr, DecidableEq

/-- Order-book snapshot delivered by the market-data feed; `bids` and `asks`
are (price, size) pairs. -/
structure OrderBookData where
  symbol : String
  bids : List (ℚ × ℚ)
  asks : List (ℚ × ℚ)
  timestamp : ℕ
deriving Repr, DecidableEq

/-- One `MarketData` argument to `updateData`: the tickers and order books
present in the update, in `Object.entries` (insertion) order. -/
structure MarketData where
  tickers : List (String × TickerData)
  orderBooks : List (String × OrderBookData)
  lastUpdate : ℕ
deriving Repr, DecidableEq

/-- The FeatureEngine's per-symbol history buffers.  `none` models a key that
is absent from the underlying JavaScript object (as opposed to a key holding
an empty array). -/
structure FEState where
  priceHistory : String → Option (List ℚ)
  volumeHistory : String → Option (List ℚ)
  orderBookHistory : String → Option (List OrderBookData)

/-- Fresh engine: the constructor performs no per-symbol initialisation
("dynamic symbol support"). -/
def emptyFE : FEState :=
  { priceHistory := fun _ => none
    volumeHistory := fun _ => none
    orderBookHistory := fun _ => none }

/-- `maxHistoryLength` from the source. -/
def maxHistoryLength : ℕ := 200

/-- Processing of one `[symbol, ticker]` entry of `marketData.tickers`:
lazily creates the three buffers for a new symbol, appends price and volume,
and evicts the oldest entries once the cap is exceeded. -/
def applyTicker (st : FEState) (symbol : String) (t : TickerData) : FEState :=
  -- `if (!this.priceHistory[symbol]) { ... = []; ... = []; ... = []; }`
  let st1 : FEState :=
    match st.priceHistory symbol with
    | some _ => st
    | none =>
      { priceHistory := setF st.priceHistory symbol (some [])
        volumeHistory := setF st.volumeHistory symbol (some [])
        orderBookHistory := setF st.orderBookHistory symbol (some []) }
  let ph := (st1.priceHistory symbol).getD [] ++ [t.price]
  let vh := (st1.volumeHistory symbol).getD [] ++ [t.volume]
  let phvh := if maxHistoryLength < ph.length then (ph.tail, vh.tail) else (ph, vh)
  { st1 with
    priceHistory := setF st1.priceHistory symbol (some phvh.1)
    volumeHistory := setF st1.volumeHistory symbol (some phvh.2) }

/-- Result of `updateData`: the buffer state reached, and whether the call
threw (a `TypeError` from pushing onto an undefined buffer). -/
structure UpdateResult where
  state : FEState
  threw : Bool

/-- Processing of the `marketData.orderBooks` entries.  The source pushes onto
`this.orderBookHistory[symbol]` without any lazy creation, so a symbol whose
buffer does not exist throws; the throw aborts the remaining entries. -/
def applyOrderBooks (st : FEState) : List (String × OrderBookData) → UpdateResult
  | [] => { state := st, threw := false }
  | (symbol, ob) :: rest =>
    match st.orderBookHistory symbol with
    | none => { state := st, threw := true }
    | some l =>
      let l1 := l ++ [ob]
      let l2 := if maxHistoryLength < l1.length then l1.tail else l1
      applyOrderBooks { st with orderBookHistory := setF st.orderBookHistory symbol (some l2) } rest

/-- `updateData(marketData)`: tickers first (with lazy buffer creation), then
order-book snapshots (without it). -/
def updateData (st : FEState) (md : MarketData) : UpdateResult :=
  let st1 := md.tickers.foldl (fun s e => applyTicker s e.1 e.2) st
  applyOrderBooks st1 md.orderBooks

/-! ## FeatureEngine: feature computations -/

/-- `calculateReturns`: simple percent returns, defined only where the
previous price is positive. -/
def calculateReturns (prices : List ℚ) : List ℚ :=
  ((prices.zip prices.tail).filterMap fun pr =>
    if 0 < pr.1 then some ((pr.2 - pr.1) / pr.1) else none)

/-- Arithmetic mean of a list of rationals (`0` on the empty list, where the
source never evaluates it). -/
def meanQ (l : List ℚ) : ℚ := l.sum / l.length

/-- Population variance of a list of rationals. -/
def varianceQ (l : List ℚ) : ℚ :=
  ((l.map fun v => (v - meanQ l) ^ 2).sum) / l.length

/-- `standardDeviation` applied to a list of (exact) rationals. -/
noncomputable def standardDeviationQ (l : List ℚ) : ℝ :=
  if l = [] then 0 else Real.sqrt ((varianceQ l : ℚ) : ℝ)

/-- Arithmetic mean of a list of reals. -/
noncomputable def meanR (l : List ℝ) : ℝ := l.sum / l.length

/-- Population variance of a list of reals. -/
noncomputable def varianceR (l : List ℝ) : ℝ :=
  ((l.map fun v => (v - meanR l) ^ 2).sum) / l.length

/-- `standardDeviation` applied to a list of reals (the source reuses one
function at both types). -/
noncomputable def standardDeviationR (l : List ℝ) : ℝ :=
  if l = [] then 0 else Real.sqrt (varianceR l)

/-- `calculateVolatility`. -/
noncomputable def calculateVolatility (prices : List ℚ) : ℝ :=
  if prices.length < 2 then 0 else standardDeviationQ (calculateReturns prices)

/-- `calculateVVIX`: standard deviation of the sliding-window (width 10)
standard deviations of the return series; `0` below 20 prices. -/
noncomputable def calculateVVIX (prices : List ℚ) : ℝ :=
  if prices.length < 20 then 0
  else
    let returns := calculateReturns prices
    let volatilities := (List.range returns.length).filterMap fun i =>
      if 10 ≤ i then some (standardDeviationQ ((returns.drop (i - 10)).take 10)) else none
    if 0 < volatilities.length then standardDeviationR volatilities else 0

instance : Inhabited OrderBookData := ⟨⟨"", [], [], 0⟩⟩

/-- `calculateOFI`: order-flow imbalance from the two most recent snapshots. -/
def calculateOFI (orderBooks : List OrderBookData) : ℚ :=
  if orderBooks.length < 2 then 0
  else
    let latest := orderBooks.getD (orderBooks.length - 1) default
    let previous := orderBooks.getD (orderBooks.length - 2) default
    let bidVolume := (latest.bids.map Prod.snd).sum
    let askVolume := (latest.asks.map Prod.snd).sum
    let prevBidVolume := (previous.bids.map Prod.snd).sum
    let prevAskVolume := (previous.asks.map Prod.snd).sum
    let bidFlow := bidVolume - prevBidVolume
    let askFlow := askVolume - prevAskVolume
    (bidFlow - askFlow) / (bidFlow + askFlow + 1 / 100000000)

/-- `calculateVPIN`: classify each tick's volume by the sign of the price
change and return the normalized absolute imbalance. -/
def calculateVPIN (volumes prices : List ℚ) : ℚ :=
  if volumes.length < 20 ∨ prices.length < 20 then 0
  else
    let n := min volumes.length prices.length
    let buyVolume := ((List.range n).filterMap fun i =>
      if 1 ≤ i ∧ 0 < prices.getD i 0 - prices.getD (i - 1) 0 then some (volumes.getD i 0)
      else none).sum
    let sellVolume := ((List.range n).filterMap fun i =>
      if 1 ≤ i ∧ ¬0 < prices.getD i 0 - prices.getD (i - 1) 0 then some (volumes.getD i 0)
      else none).sum
    let totalVolume := buyVolume + sellVolume
    if 0 < totalVolume then |buyVolume - sellVolume| / totalVolume else 0

/-- `pearsonCorrelation`. -/
noncomputable def pearsonCorrelation (x y : List ℚ) : ℝ :=
  if x.length ≠ y.length ∨ x = [] then 0
  else
    let n : ℚ := x.length
    let sumX := x.sum
    let sumY := y.sum
    let sumXY := ((x.zip y).map fun p => p.1 * p.2).sum
    let sumXX := (x.map fun v => v * v).sum
    let sumYY := (y.map fun v => v * v).sum
    let numerator : ℝ := ((n * sumXY - sumX * sumY : ℚ) : ℝ)
    let denominator : ℝ :=
      Real.sqrt (((n * sumXX - sumX * sumX) * (n * sumYY - sumY * sumY) : ℚ) : ℝ)
    if denominator ≠ 0 then numerator / denominator else 0

/-- `calculateCorrelation`: Pearson correlation of returns against the BTCUSDT
reference (defined as 0 for BTCUSDT itself and below 20 samples). -/
noncomputable def calculateCorrelation (symbol : String) (prices btcPrices : List ℚ) : ℝ :=
  if symbol = "BTCUSDT" then 0
  else if prices.length < 20 ∨ btcPrices.length < 20 then 0
  else
    let length := min (min prices.length btcPrices.length) 20
    let priceReturns := calculateReturns (prices.drop (prices.length - length))
    let btcReturns := calculateReturns (btcPrices.drop (btcPrices.length - length))
    pearsonCorrelation priceReturns btcReturns

/-- `calculateLiquidity`: mean of a spread score and a depth score from the
latest snapshot. -/
def calculateLiquidity (orderBooks : List OrderBookData) : ℚ :=
  if orderBooks = [] then 0
  else
    let latest := orderBooks.getD (orderBooks.length - 1) default
    let bestBid := ((latest.bids.head?.map Prod.fst).getD 0)
    let bestAsk := ((latest.asks.head?.map Prod.fst).getD 0)
    let spread := bestAsk - bestBid
    let midPrice := (bestBid + bestAsk) / 2
    let bidDepth := ((latest.bids.take 10).map Prod.snd).sum
    let askDepth := ((latest.asks.take 10).map Prod.snd).sum
    let totalDepth := bidDepth + askDepth
    let spreadScore := if 0 < midPrice then 1 / (1 + spread / midPrice) else 0
    let depthScore := min (totalDepth / 1000) 1
    (spreadScore + depthScore) / 2

/-- `calculateMomentum`: mean of the last two prices against the mean of the
two before them. -/
def calculateMomentum (prices : List ℚ) : ℚ :=
  if prices.length < 4 then 0
  else
    let recent := prices.drop (prices.length - 2)
    let older := (prices.drop (prices.length - 4)).take 2
    let recentAvg := meanQ recent
    let olderAvg := meanQ older
    if 0 < olderAvg then (recentAvg - olderAvg) / olderAvg else 0

/-- `calculateMeanReversion`: deviation of the last price from the mean,
scaled and capped at 1. -/
def calculateMeanReversion (prices : List ℚ) : ℚ :=
  if prices.length < 3 then 0
  else
    let mean := meanQ prices
    let currentPrice := prices.getD (prices.length - 1) 0
    let deviation := |currentPrice - mean| / mean
    min (deviation * 2) 1

/-- `calculateTrend`: OLS slope over the most recent up-to-20 prices,
normalized by the window's average price. -/
def calculateTrend (prices : List ℚ) : ℚ :=
  if prices.length < 10 then 0
  else
    let n : ℕ := min prices.length 20
    let recentPrices := prices.drop (prices.length - n)
    let sumX : ℚ := ((List.range recentPrices.length).map fun i => (i : ℚ)).sum
    let sumY : ℚ := recentPrices.sum
    let sumXY : ℚ := ((List.range recentPrices.length).map fun (i : ℕ) =>
      (i : ℚ) * recentPrices.getD i 0).sum
    let sumXX : ℚ := ((List.range recentPrices.length).map fun (i : ℕ) => (i : ℚ) * i).sum
    let slope := ((n : ℚ) * sumXY - sumX * sumY) / ((n : ℚ) * sumXX - sumX * sumX)
    let avgPrice := sumY / (n : ℚ)
    if 0 < avgPrice then slope / avgPrice else 0

/-- Per-symbol feature snapshot.  Fields the source derives through square
roots are real-valued; the purely rational ones stay rational. -/
structure FeatureSet where
  vvix : ℝ
  ofi : ℚ
  vpin : ℚ
  correlation : ℝ
  liquidity : ℚ
  volatility : ℝ
  momentum : ℚ
  meanReversion : ℚ
  trend : ℚ
  timestamp : ℕ

/-- `extractFeatures(symbol)`: `none` below 10 recorded prices, otherwise the
full feature snapshot.  (For any state reachable through `updateData` the
volume and order-book buffers exist whenever the price buffer does; `getD []`
reads the absent case as empty, which the individual guards treat alike.) -/
noncomputable def extractFeatures (st : FEState) (symbol : String) (now : ℕ) :
    Option FeatureSet :=
  let prices := (st.priceHistory symbol).getD []
  let volumes := (st.volumeHistory symbol).getD []
  let orderBooks := (st.orderBookHistory symbol).getD []
  if prices.length < 10 then none
  else some
    { vvix := calculateVVIX prices
      ofi := calculateOFI orderBooks
      vpin := calculateVPIN volumes prices
      correlation := calculateCorrelation symbol prices ((st.priceHistory "BTCUSDT").getD [])
      liquidity := calculateLiquidity orderBooks
      volatility := calculateVolatility prices
      momentum := calculateMomentum prices
      meanReversion := calculateMeanReversion prices
      trend := calculateTrend prices
      timestamp := now }

/-- Market-regime classification label. -/
inductive RegimeType where
  | trending | ranging | volatile | stable
deriving Repr, DecidableEq

/-- Regime classification: label, confidence, and the features that produced
it. -/
structure MarketRegime where
  type : RegimeType
  confidence : ℝ
  features : FeatureSet

/-- The deterministic decision list of `detectRegime` (its pure part, after
the `extractFeatures` guard): volatility, then |trend|, then mean reversion,
else stable. -/
noncomputable def detectRegimeFromFeatures (f : FeatureSet) : MarketRegime :=
  if (0.7 : ℝ) < f.volatility then ⟨RegimeType.volatile, f.volatility, f⟩
  else if (0.6 : ℚ) < |f.trend| then ⟨RegimeType.trending, ((|f.trend| : ℚ) : ℝ), f⟩
  else if (0.6 : ℚ) < f.meanReversion then ⟨RegimeType.ranging, ((f.meanReversion : ℚ) : ℝ), f⟩
  else ⟨RegimeType.stable, 0.5, f⟩

/-- `detectRegime(symbol)`: feature extraction followed by the decision list
(the fire-and-forget persistence write has no effect on the result). -/
noncomputable def detectRegime (st : FEState) (symbol : String) (now : ℕ) :
    Option MarketRegime :=
  (extractFeatures st symbol now).map detectRegimeFromFeatures

/-! ## AIOrchestrator: signals and strategy heuristics -/

/-- The `action` of a trading signal. -/
inductive TradeAction where
  | buy | sell | hold
deriving Repr, DecidableEq

/-- A trading signal.  `confidence` is real-valued because several heuristics
derive it from real-valued features; numeric interpolation inside the
free-text `reasoning` is elided. -/
structure TradingSignal where
  symbol : String
  action : TradeAction
  confidence : ℝ
  strategy : String
  price : ℚ
  timestamp : ℕ
  reasoning : String

/-- Per-strategy Thompson-sampling state. -/
structure BanditArm where
  strategyId : String
  wins : ℕ
  trials : ℕ
  alpha : ℚ
  beta : ℚ
deriving Repr, DecidableEq

/-- The orchestrator's tunables (`AIOrchestrator['config']`). -/
structure OrchConfig where
  learningRate : ℚ
  explorationRate : ℚ
  minConfidenceThreshold : ℚ
  maxSignalsPerSymbol : ℕ
  signalCooldownMs : ℕ
deriving Repr, DecidableEq

/-- The constructor defaults of `AIOrchestrator`. -/
def defaultOrchConfig : OrchConfig :=
  { learningRate := 15 / 1000
    explorationRate := 8 / 100
    minConfidenceThreshold := 25 / 100
    maxSignalsPerSymbol := 2
    signalCooldownMs := 30000 }

/-- The mutable orchestrator state touched by `generateSignal`. -/
structure OrchState where
  recentSignals : List TradingSignal
  lastSignalTime : String → Option ℕ

/-- The neutral `baseSignal` each strategy heuristic starts from. -/
def baseSignal (strategyId symbol : String) (price : ℚ) (now : ℕ) : TradingSignal :=
  { symbol := symbol, action := TradeAction.hold, confidence := 0, strategy := strategyId
    price := price, timestamp := now, reasoning := "" }

/-- `trendFollowingStrategy`. -/
noncomputable def trendFollowingStrategy (signal : TradingSignal) (f : FeatureSet) :
    TradingSignal :=
  let trendStrength := |f.trend|
  if (0.005 : ℚ) < trendStrength then
    { signal with
      action := if 0 < f.trend then TradeAction.buy else TradeAction.sell
      confidence := ((min (trendStrength * 15) 0.95 : ℚ) : ℝ)
      reasoning := "Trend detected" }
  else signal

/-- `momentumStrategy`. -/
noncomputable def momentumStrategy (signal : TradingSignal) (f : FeatureSet) :
    TradingSignal :=
  let momentumStrength := |f.momentum|
  if (0.002 : ℚ) < momentumStrength then
    { signal with
      action := if 0 < f.momentum then TradeAction.buy else TradeAction.sell
      confidence := ((min (momentumStrength * 25) 0.9 : ℚ) : ℝ)
      reasoning := "Momentum signal" }
  else signal

/-- `meanReversionStrategy`. -/
noncomputable def meanReversionStrategy (signal : TradingSignal) (f : FeatureSet) :
    TradingSignal :=
  if (0.4 : ℚ) < f.meanReversion ∧ (0.3 : ℝ) < f.volatility then
    { signal with
      action := if f.trend < 0 then TradeAction.buy else TradeAction.sell
      confidence := ((f.meanReversion : ℚ) : ℝ)
      reasoning := "Mean reversion opportunity" }
  else signal

/-- `breakoutStrategy`. -/
noncomputable def breakoutStrategy (signal : TradingSignal) (f : FeatureSet) :
    TradingSignal :=
  if (0.6 : ℝ) < f.volatility ∧ (0.5 : ℚ) < f.liquidity then
    if (0.03 : ℚ) < |f.momentum| then
      { signal with
        action := if 0 < f.momentum then TradeAction.buy else TradeAction.sell
        confidence := min (f.volatility + (f.momentum : ℝ)) 1
        reasoning := "Breakout detected" }
    else signal
  else signal

/-- `scalpingStrategy`. -/
noncomputable def scalpingStrategy (signal : TradingSignal) (f : FeatureSet) :
    TradingSignal :=
  if (0.7 : ℚ) < f.liquidity ∧ f.volatility < (0.4 : ℝ) then
    if (0.3 : ℚ) < |f.ofi| then
      { signal with
        action := if 0 < f.ofi then TradeAction.buy else TradeAction.sell
        confidence := ((|f.ofi| : ℚ) : ℝ)
        reasoning := "Order flow imbalance" }
    else signal
  else signal

/-- `swingTradingStrategy`. -/
noncomputable def swingTradingStrategy (signal : TradingSignal) (f : FeatureSet)
    (regime : MarketRegime) : TradingSignal :=
  if regime.type = RegimeType.ranging ∧ (0.2 : ℝ) < f.volatility ∧ f.volatility < (0.6 : ℝ) then
    if (0.3 : ℚ) < |f.meanReversion| then
      { signal with
        action := if f.trend < -0.1 then TradeAction.buy else TradeAction.sell
        confidence := (f.meanReversion : ℝ) * regime.confidence
        reasoning := "Swing trade in ranging market" }
    else signal
  else signal

/-- `statisticalArbitrageStrategy`. -/
noncomputable def statisticalArbitrageStrategy (signal : TradingSignal) (f : FeatureSet) :
    TradingSignal :=
  if (0.7 : ℝ) < |f.correlation| ∧ (0.5 : ℚ) < f.meanReversion then
    { signal with
      action := if f.correlation * (f.trend : ℝ) < 0 then TradeAction.buy else TradeAction.sell
      confidence := min (|f.correlation| + (f.meanReversion : ℝ)) 1 * 0.8
      reasoning := "Statistical arbitrage" }
  else signal

/-- `contextualBanditsStrategy`: weighted linear combination of five
features. -/
noncomputable def contextualBanditsStrategy (signal : TradingSignal) (f : FeatureSet)
    (regime : MarketRegime) : TradingSignal :=
  let combinedSignal : ℚ :=
    f.trend * 0.3 + f.momentum * 0.2 + f.ofi * 0.2 + f.meanReversion * (-0.1) + f.vpin * 0.2
  if (0.3 : ℚ) < |combinedSignal| then
    { signal with
      action := if 0 < combinedSignal then TradeAction.buy else TradeAction.sell
      confidence := min ((|combinedSignal| : ℝ) * regime.confidence) 1
      reasoning := "Multi-factor signal" }
  else signal

/-- `executeStrategy`: dispatch on the selected strategy id. -/
noncomputable def executeStrategy (strategyId symbol : String) (price : ℚ)
    (f : FeatureSet) (regime : MarketRegime) (now : ℕ) : TradingSignal :=
  let base := baseSignal strategyId symbol price now
  if strategyId = "trend_following" then trendFollowingStrategy base f
  else if strategyId = "momentum" then momentumStrategy base f
  else if strategyId = "mean_reversion" then meanReversionStrategy base f
  else if strategyId = "breakout" then breakoutStrategy base f
  else if strategyId = "scalping" then scalpingStrategy base f
  else if strategyId = "swing_trading" then swingTradingStrategy base f regime
  else if strategyId = "statistical_arbitrage" then statisticalArbitrageStrategy base f
  else if strategyId = "contextual_bandits" then contextualBanditsStrategy base f regime
  else base

/-- `generateSignal`, with the two sources of environment interaction made
explicit: `selected` is the strategy id drawn by the randomized
`selectStrategy`, and `saveResult` is the id (or failure, `none`) returned by
the persistence collaborator's `saveSignal`.  Returns the accepted signal (if
any) together with the orchestrator state after the call. -/
noncomputable def generateSignal (cfg : OrchConfig) (st : OrchState) (symbol : String)
    (price : ℚ) (f : FeatureSet) (regime : MarketRegime) (selected : String) (now : ℕ)
    (saveResult : Option String) : Option (TradingSignal × String) × OrchState :=
  let lastSignal := (st.lastSignalTime symbol).getD 0
  if now - lastSignal < cfg.signalCooldownMs then (none, st)
  else
    let recentSymbolSignals := st.recentSignals.filter fun s =>
      s.symbol = symbol ∧ now - s.timestamp < 300000
    if cfg.maxSignalsPerSymbol ≤ recentSymbolSignals.length then (none, st)
    else
      let signal := executeStrategy selected symbol price f regime now
      if ((cfg.minConfidenceThreshold : ℚ) : ℝ) ≤ signal.confidence then
        match saveResult with
        | none => (none, st)
        | some signalId =>
          let rs := st.recentSignals ++ [signal]
          let rs2 := if 100 < rs.length then rs.tail else rs
          (some (signal, signalId),
            { recentSignals := rs2, lastSignalTime := setF st.lastSignalTime symbol (some now) })
      else (none, st)

/-! ## AIOrchestrator: Thompson sampling (explicit randomness) -/

/-- `getContextAdjustment`: the fixed per-strategy context multiplier table. -/
noncomputable def getContextAdjustment (strategyId : String) (f : FeatureSet)
    (regime : MarketRegime) : ℚ :=
  if strategyId = "trend_following" then
    if regime.type = RegimeType.trending then 1.5 else 0.8
  else if strategyId = "momentum" then
    if (0.5 : ℝ) < f.volatility then 1.3 else 0.9
  else if strategyId = "mean_reversion" then
    if regime.type = RegimeType.ranging then 1.4 else 0.7
  else if strategyId = "breakout" then
    if (0.6 : ℝ) < f.volatility then 1.6 else 0.6
  else if strategyId = "scalping" then
    if (0.7 : ℚ) < f.liquidity then 1.4 else 0.5
  else if strategyId = "swing_trading" then
    if regime.type = RegimeType.ranging then 1.3 else 0.8
  else if strategyId = "statistical_arbitrage" then
    if (0.6 : ℝ) < |f.correlation| then 1.2 else 0.9
  else if strategyId = "contextual_bandits" then 1.0
  else 1.0

/-- A seeded random source: the stream of values that consecutive
`Math.random()` calls return, consumed in call order. -/
def RandStream : Type := ℕ → ℚ

/-- `normalSample` (Box–Muller) from two uniform draws. -/
noncomputable def normalSample (u1 u2 : ℚ) : ℝ :=
  Real.sqrt (-2 * Real.log ((u1 : ℚ) : ℝ)) * Real.cos (2 * Real.pi * ((u2 : ℚ) : ℝ))

/-- The Marsaglia–Tsang acceptance loop of `gammaSample` for `shape ≥ 1`.
Each pass draws `x` (two uniforms) and, when `1 + c·x` is positive, one more
uniform for the acceptance tests; a failed pass retries.  `fuel` bounds the
number of passes (the source loop is unbounded); the result carries the index
of the next unconsumed random draw. -/
noncomputable def gammaLoop (d c : ℝ) (rand : RandStream) : ℕ → ℕ → Option (ℝ × ℕ)
  | 0, _ => none
  | fuel + 1, i =>
    let x := normalSample (rand i) (rand (i + 1))
    let v := 1 + c * x
    if v ≤ 0 then gammaLoop d c rand fuel (i + 2)
    else
      let v3 := v * v * v
      let u := ((rand (i + 2) : ℚ) : ℝ)
      if u < 1 - 0.0331 * x * x * x * x then some (d * v3, i + 3)
      else if Real.log u < 0.5 * x * x + d * (1 - v3 + Real.log v3) then some (d * v3, i + 3)
      else gammaLoop d c rand fuel (i + 3)

/-- `gammaSample(shape)`: for `shape < 1` boost the shape and scale by a
power of a fresh uniform draw; otherwise run the Marsaglia–Tsang loop. -/
noncomputable def gammaSample (rand : RandStream) : ℕ → ℚ → ℕ → Option (ℝ × ℕ)
  | 0, _, _ => none
  | fuel + 1, shape, i =>
    if shape < 1 then
      match gammaSample rand fuel (shape + 1) i with
      | none => none
      | some (g, i2) =>
        some (g * ((rand i2 : ℚ) : ℝ) ^ ((1 : ℝ) / ((shape : ℚ) : ℝ)), i2 + 1)
    else
      let d : ℝ := ((shape : ℚ) : ℝ) - 1 / 3
      let c : ℝ := 1 / Real.sqrt (9 * d)
      gammaLoop d c rand (fuel + 1) i

/-- `betaSample(alpha, beta)` via two Gamma draws. -/
noncomputable def betaSample (rand : RandStream) (fuel : ℕ) (a b : ℚ) (i : ℕ) :
    Option (ℝ × ℕ) :=
  match gammaSample rand fuel a i with
  | none => none
  | some (g1, i1) =>
    match gammaSample rand fuel b i1 with
    | none => none
    | some (g2, i2) => some (g1 / (g1 + g2), i2)

/-- Stable insertion into a list sorted by descending sample value (the model
of the source's stable `sort((a, b) => b.sample - a.sample)`). -/
noncomputable def insertDesc (x : String × ℝ) : List (String × ℝ) → List (String × ℝ)
  | [] => [x]
  | y :: ys => if y.2 < x.2 then x :: y :: ys else y :: insertDesc x ys

/-- Descending stable sort by sample value. -/
noncomputable def sortDesc (l : List (String × ℝ)) : List (String × ℝ) :=
  l.foldr insertDesc []

/-- Adjusted Thompson samples for every arm, in arm-insertion order,
threading the random index; `none` if any Gamma draw exhausts its fuel. -/
noncomputable def armSamples (rand : RandStream) (fuel : ℕ) (f : FeatureSet)
    (regime : MarketRegime) : List BanditArm → ℕ → Option (List (String × ℝ) × ℕ)
  | [], i => some ([], i)
  | arm :: rest, i =>
    match betaSample rand fuel arm.alpha arm.beta i with
    | none => none
    | some (sample, i1) =>
      let adjusted := sample * ((getContextAdjustment arm.strategyId f regime : ℚ) : ℝ)
      match armSamples rand fuel f regime rest i1 with
      | none => none
      | some (l, i2) => some ((arm.strategyId, adjusted) :: l, i2)

/-- `selectStrategy`: one adjusted Beta sample per arm, descending sort, then
an epsilon-greedy override with a uniformly random index; `none` when the
sampler fuel runs out or the arm list is empty (where the source would fault). -/
noncomputable def selectStrategy (cfg : OrchConfig) (arms : List BanditArm)
    (f : FeatureSet) (regime : MarketRegime) (rand : RandStream) (fuel : ℕ) (i : ℕ) :
    Option String :=
  match armSamples rand fuel f regime arms i with
  | none => none
  | some (samples, i1) =>
    let sorted := sortDesc samples
    if rand i1 < cfg.explorationRate then
      let randomIndex := (⌊rand (i1 + 1) * (sorted.length : ℚ)⌋).toNat
      (sorted.get? randomIndex).map Prod.fst
    else (sorted.head?).map Prod.fst

/-! ## ProfitLockingEngine: data model -/

/-- Position side. -/
inductive Side where
  | long | short
deriving Repr, DecidableEq

/-- The engine's constructor-time tunables (`TradingConfig`). -/
structure TradingConfig where
  maxPositions : ℕ
  riskPerTrade : ℚ
  stopLossPercent : ℚ
  takeProfitMultiplier : ℚ
  atrPeriod : ℕ
  trailingStopPercent : ℚ
deriving Repr, DecidableEq

/-- The constructor defaults of `ProfitLockingEngine`. -/
def defaultTradingConfig : TradingConfig :=
  { maxPositions := 250
    riskPerTrade := 2 / 100
    stopLossPercent := 3 / 100
    takeProfitMultiplier := 5 / 2
    atrPeriod := 14
    trailingStopPercent := 2 / 100 }

/-- Per-method profit-lock tuning (`ProfitLockConfig`). -/
structure ProfitLockConfig where
  method : String
  atrMultiplier : ℚ
  trailingPercent : ℚ
  partialProfitLevels : List ℚ
  timeBasedExitMinutes : ℕ
  edgeDecayThreshold : ℚ
  maxDrawdownPercent : ℚ
deriving Repr, DecidableEq

/-- The `defaultConfigs` table, derived from the trading config.  The source
indexes it with the result of `selectProfitLockMethod`, whose codomain is
exactly the six named methods; for any other string (unreachable through
`addPosition`) we return the fallback method's record, where the source would
fault on an undefined lookup. -/
def defaultConfigs (cfg : TradingConfig) (method : String) : ProfitLockConfig :=
  if method = "partial_profit_scaling" then
    { method := "partial_profit_scaling"
      atrMultiplier := cfg.takeProfitMultiplier * 0.8
      trailingPercent := cfg.trailingStopPercent * 0.8
      partialProfitLevels := [0.5, 0.75]
      timeBasedExitMinutes := 0
      edgeDecayThreshold := 0.1
      maxDrawdownPercent := 0.12 }
  else if method = "fixed_take_profit" then
    { method := "fixed_take_profit"
      atrMultiplier := cfg.takeProfitMultiplier * 0.6
      trailingPercent := cfg.trailingStopPercent * 1.2
      partialProfitLevels := []
      timeBasedExitMinutes := 0
      edgeDecayThreshold := 0.1
      maxDrawdownPercent := 0.20 }
  else if method = "time_based_stop" then
    { method := "time_based_stop"
      atrMultiplier := cfg.takeProfitMultiplier
      trailingPercent := cfg.trailingStopPercent
      partialProfitLevels := []
      timeBasedExitMinutes := 240
      edgeDecayThreshold := 0.1
      maxDrawdownPercent := 0.15 }
  else if method = "edge_decay_exit" then
    { method := "edge_decay_exit"
      atrMultiplier := cfg.takeProfitMultiplier * 1.2
      trailingPercent := cfg.trailingStopPercent * 1.5
      partialProfitLevels := []
      timeBasedExitMinutes := 0
      edgeDecayThreshold := 0.05
      maxDrawdownPercent := 0.18 }
  else if method = "drawdown_trailing_stop" then
    { method := "drawdown_trailing_stop"
      atrMultiplier := cfg.takeProfitMultiplier * 1.4
      trailingPercent := cfg.trailingStopPercent * 0.8
      partialProfitLevels := []
      timeBasedExitMinutes := 0
      edgeDecayThreshold := 0.1
      maxDrawdownPercent := 0.10 }
  else
    { method := "volatility_adaptive_trailing_stop"
      atrMultiplier := cfg.takeProfitMultiplier
      trailingPercent := cfg.trailingStopPercent
      partialProfitLevels := []
      timeBasedExitMinutes := 0
      edgeDecayThreshold := 0.1
      maxDrawdownPercent := 0.15 }

/-- A live paper-trading position.  `edgeDecayScore` is real-valued (the
source computes it with `Math.exp`); every price/PnL field is an exact
rational. -/
structure Position where
  id : String
  symbol : String
  side : Side
  size : ℚ
  entryPrice : ℚ
  currentPrice : ℚ
  unrealizedPnL : ℚ
  unrealizedPnLPct : ℚ
  trailingStopPrice : ℚ
  takeProfitPrice : ℚ
  profitLockMethod : String
  timeHeld : String
  entryTime : ℕ
  edgeDecayScore : ℝ
  maxDrawdownFromPeak : ℚ
  peakPnL : ℚ
  atrValue : ℚ
  originalSignal : TradingSignal

/-- The engine state touched by `addPosition`/`updatePositions`: the live
positions in `Map` insertion order, and the engine's own per-symbol price
history (for the ATR proxy; absent keys and empty arrays are handled alike
by the source, so a plain list suffices). -/
structure EngineState where
  positions : List (String × Position)
  priceHistory : String → List ℚ

/-- `selectProfitLockMethod`: the fixed strategy-to-method map with the
volatility-adaptive fallback. -/
def selectProfitLockMethod (signal : TradingSignal) : String :=
  if signal.strategy = "scalping" then "partial_profit_scaling"
  else if signal.strategy = "momentum" then "volatility_adaptive_trailing_stop"
  else if signal.strategy = "trend_following" then "volatility_adaptive_trailing_stop"
  else if signal.strategy = "mean_reversion" then "fixed_take_profit"
  else if signal.strategy = "breakout" then "volatility_adaptive_trailing_stop"
  else if signal.strategy = "swing_trading" then "drawdown_trailing_stop"
  else if signal.strategy = "statistical_arbitrage" then "edge_decay_exit"
  else if signal.strategy = "contextual_bandits" then "drawdown_trailing_stop"
  else "volatility_adaptive_trailing_stop"

/-- `calculateATR`: average absolute consecutive price delta over the ATR
lookback, with a percent-of-price (or 0.01) fallback below the lookback. -/
def calculateATR (cfg : TradingConfig) (prices : List ℚ) : ℚ :=
  if prices.length < cfg.atrPeriod then
    if 0 < prices.length then prices.getD (prices.length - 1) 0 * cfg.stopLossPercent
    else 1 / 100
  else
    let atrSum := ((List.range (min cfg.atrPeriod prices.length)).filterMap fun i =>
      if 1 ≤ i then some |prices.getD i 0 - prices.getD (i - 1) 0| else none).sum
    atrSum / (min (cfg.atrPeriod - 1) (prices.length - 1) : ℕ)

/-- `calculateInitialStopPrice`: a configurable percent of the entry price,
below for buys and above otherwise. -/
def calculateInitialStopPrice (cfg : TradingConfig) (signal : TradingSignal) : ℚ :=
  let stopDistance := signal.price * cfg.stopLossPercent
  if signal.action = TradeAction.buy then signal.price - stopDistance
  else signal.price + stopDistance

/-- `calculateTakeProfitPrice`: an ATR-proxy distance with the method
multiplier, doubled. -/
def calculateTakeProfitPrice (config : ProfitLockConfig) (signal : TradingSignal)
    (atr : ℚ) : ℚ :=
  let atrDistance := atr * config.atrMultiplier * 2
  if signal.action = TradeAction.buy then signal.price + atrDistance
  else signal.price - atrDistance

/-- The `Position` record `addPosition` constructs before inserting it. -/
def mkPosition (cfg : TradingConfig) (st : EngineState) (signal : TradingSignal)
    (size : ℚ) (now : ℕ) : Position :=
  let method := selectProfitLockMethod signal
  let config := defaultConfigs cfg method
  let atrValue := calculateATR cfg (st.priceHistory signal.symbol)
  { id := signal.symbol ++ "_" ++ toString now
    symbol := signal.symbol
    side := if signal.action = TradeAction.buy then Side.long else Side.short
    size := size
    entryPrice := signal.price
    currentPrice := signal.price
    unrealizedPnL := 0
    unrealizedPnLPct := 0
    trailingStopPrice := calculateInitialStopPrice cfg signal
    takeProfitPrice := calculateTakeProfitPrice config signal atrValue
    profitLockMethod := method
    timeHeld := "0m"
    entryTime := now
    edgeDecayScore := 1
    maxDrawdownFromPeak := 0
    peakPnL := 0
    atrValue := atrValue
    originalSignal := signal }

/-- `addPosition(signal, size)`: rejected (empty id, state unchanged) at the
global cap or the per-symbol cap of 3; otherwise the new position is inserted
at the end of the live set. -/
def addPosition (cfg : TradingConfig) (st : EngineState) (signal : TradingSignal)
    (size : ℚ) (now : ℕ) : Option String × EngineState :=
  if cfg.maxPositions ≤ st.positions.length then (none, st)
  else if 3 ≤ (st.positions.filter fun e => e.2.symbol = signal.symbol).length then (none, st)
  else
    let pos := mkPosition cfg st signal size now
    (some pos.id, { st with positions := st.positions ++ [(pos.id, pos)] })

/-! ## ProfitLockingEngine: per-tick update and exit evaluation -/

/-- `updateTrailingStop`: ratchet the stop toward the favorable direction
only. -/
def updateTrailingStop (cfg : TradingConfig) (p : Position) : Position :=
  let config := defaultConfigs cfg p.profitLockMethod
  match p.side with
  | Side.long =>
    let newStop := p.currentPrice * (1 - config.trailingPercent)
    if p.trailingStopPrice < newStop then { p with trailingStopPrice := newStop } else p
  | Side.short =>
    let newStop := p.currentPrice * (1 + config.trailingPercent)
    if newStop < p.trailingStopPrice then { p with trailingStopPrice := newStop } else p

/-- `updatePosition(position, currentPrice)` (its pure per-position part):
PnL, monotone peak, clamped drawdown, time held, edge decay, then the
trailing-stop ratchet. -/
noncomputable def updatePosition (cfg : TradingConfig) (p : Position) (currentPrice : ℚ)
    (now : ℕ) : Position :=
  let priceDiff := currentPrice - p.entryPrice
  let pnl := match p.side with
    | Side.long => priceDiff * p.size
    | Side.short => -priceDiff * p.size
  let pnlPct := pnl / (p.entryPrice * p.size) * 100
  let peak := if p.peakPnL < pnl then pnl else p.peakPnL
  let drawdownFromPeak := if 0 < peak then (peak - pnl) / peak else 0
  let clampedDrawdown := min (max 0 drawdownFromPeak) 5
  let minutes := (now - p.entryTime) / 60000
  let hours := minutes / 60
  let timeHeld :=
    if 0 < hours then toString hours ++ "h " ++ toString (minutes % 60) ++ "m"
    else toString minutes ++ "m"
  let edge := Real.exp (-(0.1 : ℝ) * (((now - p.entryTime : ℕ) : ℝ) / 3600000))
  updateTrailingStop cfg
    { p with
      currentPrice := currentPrice
      unrealizedPnL := pnl
      unrealizedPnLPct := pnlPct
      peakPnL := peak
      maxDrawdownFromPeak := max p.maxDrawdownFromPeak clampedDrawdown
      timeHeld := timeHeld
      edgeDecayScore := edge }

/-- `isTrailingStopTriggered`. -/
def isTrailingStopTriggered (p : Position) : Prop :=
  match p.side with
  | Side.long => p.currentPrice ≤ p.trailingStopPrice
  | Side.short => p.trailingStopPrice ≤ p.currentPrice

/-- `isTakeProfitTriggered`. -/
def isTakeProfitTriggered (p : Position) : Prop :=
  match p.side with
  | Side.long => p.takeProfitPrice ≤ p.currentPrice
  | Side.short => p.currentPrice ≤ p.takeProfitPrice

/-- `isTimeBasedExitTriggered` (exact-arithmetic reading of the fractional
minutes comparison). -/
def isTimeBasedExitTriggered (config : ProfitLockConfig) (p : Position) (now : ℕ) : Prop :=
  if config.timeBasedExitMinutes = 0 then False
  else (config.timeBasedExitMinutes : ℚ) ≤ ((now - p.entryTime : ℕ) : ℚ) / 60000

instance (p : Position) : Decidable (isTrailingStopTriggered p) := by
  unfold isTrailingStopTriggered; cases p.side <;> infer_instance

instance (p : Position) : Decidable (isTakeProfitTriggered p) := by
  unfold isTakeProfitTriggered; cases p.side <;> infer_instance

instance (config : ProfitLockConfig) (p : Position) (now : ℕ) :
    Decidable (isTimeBasedExitTriggered config p now) := by
  unfold isTimeBasedExitTriggered; infer_instance

/-- The OR of the five exit conditions of `checkExitConditions` (evaluated on
the already-updated position): trailing stop, take profit, time-based exit,
edge decay (after a one-minute grace), and max drawdown (losing positions
only). -/
noncomputable def exitConditionsMet (cfg : TradingConfig) (p : Position) (now : ℕ) : Prop :=
  let config := defaultConfigs cfg p.profitLockMethod
  isTrailingStopTriggered p ∨ isTakeProfitTriggered p ∨
    isTimeBasedExitTriggered config p now ∨
    (p.edgeDecayScore < ((config.edgeDecayThreshold : ℚ) : ℝ) ∧ 60000 < now - p.entryTime) ∨
    (config.maxDrawdownPercent < p.maxDrawdownFromPeak ∧ p.unrealizedPnL < 0)

noncomputable instance (cfg : TradingConfig) (p : Position) (now : ℕ) :
    Decidable (exitConditionsMet cfg p now) := by
  unfold exitConditionsMet
  exact instDecidableOr

/-- The per-position body of the `updatePositions` loop: skip the position
when its symbol has no fresh (truthy) price; otherwise update it and remove
it when an exit condition fires (positions younger than ten seconds skip all
exit checks). -/
noncomputable def positionStep (cfg : TradingConfig) (prices : String → Option ℚ)
    (now : ℕ) (e : String × Position) : Option (String × Position) :=
  match prices e.2.symbol with
  | none => some e
  | some pr =>
    if pr = 0 then some e
    else
      let p1 := updatePosition cfg e.2 pr now
      if now - p1.entryTime < 10000 then some (e.1, p1)
      else if exitConditionsMet cfg p1 now then none
      else some (e.1, p1)

/-- The engine-side price-history push performed inside `updatePosition`
(lazy creation, append, evict beyond `atrPeriod * 5`). -/
def pushEnginePrice (cfg : TradingConfig) (h : String → List ℚ) (symbol : String)
    (pr : ℚ) : String → List ℚ :=
  let l := h symbol ++ [pr]
  setF h symbol (if cfg.atrPeriod * 5 < l.length then l.tail else l)

/-- `updatePositions(currentPrices)`: every live position with a truthy fresh
price is updated and exit-evaluated (and possibly removed); the engine price
history records each processed price. -/
noncomputable def updatePositions (cfg : TradingConfig) (st : EngineState)
    (prices : String → Option ℚ) (now : ℕ) : EngineState :=
  { positions := st.positions.filterMap (positionStep cfg prices now)
    priceHistory := st.positions.foldl
      (fun h e =>
        match prices e.2.symbol with
        | none => h
        | some pr => if pr = 0 then h else pushEnginePrice cfg h e.2.symbol pr)
      st.priceHistory }

/-- A sequence of `updatePositions` calls, each with its price map and
timestamp. -/
noncomputable def applyUpdates (cfg : TradingConfig) (st : EngineState)
    (l : List ((String → Option ℚ) × ℕ)) : EngineState :=
  l.foldl (fun s u => updatePositions cfg s u.1 u.2) st

/-- First-match association-list lookup on the live-position set (the model
of `Map.get`). -/
def lookupId (id : String) : List (String × Position) → Option Position
  | [] => none
  | e :: t => if e.1 = id then some e.2 else lookupId id t

/-! ## Concrete fixtures used by witnesses and counterexamples -/

/-- A fresh engine state. -/
def emptyEngine : EngineState := ⟨[], fun _ => []⟩

/-- A concrete buy signal. -/
noncomputable def sigBuy : TradingSignal :=
  ⟨"BTCUSDT", TradeAction.buy, 1, "momentum", 100, 0, ""⟩

/-- A concrete sell signal. -/
noncomputable def sigSell : TradingSignal :=
  ⟨"BTCUSDT", TradeAction.sell, 1, "momentum", 100, 0, ""⟩

/-- A concrete hold signal. -/
noncomputable def sigHold : TradingSignal :=
  ⟨"BTCUSDT", TradeAction.hold, 1, "momentum", 100, 0, ""⟩

/-- The long position `addPosition` opens for `sigBuy` on a fresh engine. -/
noncomputable def posLong : Position := mkPosition defaultTradingConfig emptyEngine sigBuy 1 0

/-- The short position `addPosition` opens for `sigSell` on a fresh engine. -/
noncomputable def posShort : Position := mkPosition defaultTradingConfig emptyEngine sigSell 1 0

/-- An all-zero feature snapshot (placeholder for `Option.getD`). -/
noncomputable def dummyFS : FeatureSet := ⟨0, 0, 0, 0, 0, 0, 0, 0, 0, 0⟩

/-- A placeholder regime for `Option.getD`. -/
noncomputable def dummyMarketRegime : MarketRegime := ⟨RegimeType.stable, 0, dummyFS⟩

/-- A single-ticker market-data update. -/
def mdTick (sym : String) (p : ℚ) : MarketData := ⟨[(sym, ⟨p, 0, 1, 0⟩)], [], 0⟩

/-- Feed a sequence of single-ticker updates for one symbol into a fresh
feature engine. -/
def feedTicks (sym : String) (ps : List ℚ) : FEState :=
  ps.foldl (fun s p => (updateData s (mdTick sym p)).state) emptyFE

/-! ## C3: extractFeatures insufficient-data guard -/

/-- C3: for every engine state and symbol, `extractFeatures` returns `none`
exactly when the symbol has fewer than 10 recorded price samples (an absent
buffer counting as zero samples); with 10 or more it returns a feature set. -/
theorem extractFeatures_none_iff (st : FEState) (symbol : String) (now : ℕ) :
    extractFeatures st symbol now = none ↔
      ((st.priceHistory symbol).getD []).length < 10 := by
  unfold extractFeatures
  dsimp only
  split_ifs with h
  · simp [h]
  · simp [h]

/-! ## C5: generateSignal persistence-failure path -/

/-- C5: whatever the inputs and the selected strategy, when persistence of
the candidate signal fails (`saveSignal` returns `none`), `generateSignal`
returns no signal — so no position can be opened from it — and leaves the
recent-signals buffer and the per-symbol last-signal timestamps unchanged. -/
theorem generateSignal_persistFail_noop (cfg : OrchConfig) (st : OrchState)
    (symbol : String) (price : ℚ) (f : FeatureSet) (regime : MarketRegime)
    (selected : String) (now : ℕ) :
    generateSignal cfg st symbol price f regime selected now none = (none, st) := by
  unfold generateSignal
  dsimp only
  split_ifs <;> rfl

/-! ## C7: updateData on a new symbol -/

/-- An order-book snapshot for a symbol no ticker has ever mentioned. -/
def mdOrderBookOnly : MarketData :=
  ⟨[], [("NEWUSDT", ⟨"NEWUSDT", [(100, 1)], [(101, 1)], 0⟩)], 0⟩

/-- A first ticker update for the same symbol. -/
def mdTickerOnly : MarketData := mdTick "NEWUSDT" 100

/-- C7 (evaluation at the failing input): on a fresh engine, `updateData`
carrying only an order-book snapshot for a new symbol throws (pushes onto an
undefined buffer), while a ticker update for a new symbol lazily creates the
buffers and does not throw — after which the same order-book update also
succeeds.  This contradicts the claim that either kind of update lazily
creates buffers and never raises an error. -/
theorem updateData_orderBook_newSymbol_throws :
    (updateData emptyFE mdOrderBookOnly).threw = true ∧
      (updateData emptyFE mdTickerOnly).threw = false ∧
      (updateData (updateData emptyFE mdTickerOnly).state mdOrderBookOnly).threw = false :=
  ⟨rfl, rfl, rfl⟩

/-! ## C2: the trailing stop only ratchets -/

/-- The trailing-stop ratchet never lowers a long stop. -/
lemma updateTrailingStop_long (cfg : TradingConfig) (q : Position)
    (h : q.side = Side.long) :
    q.trailingStopPrice ≤ (updateTrailingStop cfg q).trailingStopPrice := by
  unfold updateTrailingStop
  rw [h]
  dsimp only
  split_ifs with hlt
  · exact le_of_lt hlt
  · exact le_refl _

/-- The trailing-stop ratchet never raises a short stop. -/
lemma updateTrailingStop_short (cfg : TradingConfig) (q : Position)
    (h : q.side = Side.short) :
    (updateTrailingStop cfg q).trailingStopPrice ≤ q.trailingStopPrice := by
  unfold updateTrailingStop
  rw [h]
  dsimp only
  split_ifs with hlt
  · exact le_of_lt hlt
  · exact le_refl _

/-- C2: a single price update through `updatePosition` never decreases a long
position's trailing stop and never increases a short position's trailing
stop. -/
theorem trailingStop_ratchets (cfg : TradingConfig) (p : Position)
    (currentPrice : ℚ) (now : ℕ) :
    (p.side = Side.long →
      p.trailingStopPrice ≤ (updatePosition cfg p currentPrice now).trailingStopPrice) ∧
    (p.side = Side.short →
      (updatePosition cfg p currentPrice now).trailingStopPrice ≤ p.trailingStopPrice) := by
  constructor
  · intro h
    exact updateTrailingStop_long cfg _ h
  · intro h
    exact updateTrailingStop_short cfg _ h

/-- Witness for C2 at concrete long and short positions. -/
theorem trailingStop_ratchets_witness :
    posLong.trailingStopPrice ≤
        (updatePosition defaultTradingConfig posLong 105 5000).trailingStopPrice ∧
      (updatePosition defaultTradingConfig posShort 95 5000).trailingStopPrice ≤
        posShort.trailingStopPrice :=
  ⟨(trailingStop_ratchets defaultTradingConfig posLong 105 5000).1 rfl,
   (trailingStop_ratchets defaultTradingConfig posShort 95 5000).2 rfl⟩

/-! ## C4: addPosition capacity rejection -/

/-- C4: when the symbol already has three live positions, or the global cap
is reached, `addPosition` rejects the signal and returns the engine state
unchanged — in particular the symbol's live-position count is unchanged. -/
theorem addPosition_rejects_at_caps (cfg : TradingConfig) (st : EngineState)
    (signal : TradingSignal) (size : ℚ) (now : ℕ)
    (h : 3 ≤ (st.positions.filter fun e => e.2.symbol = signal.symbol).length ∨
      cfg.maxPositions ≤ st.positions.length) :
    addPosition cfg st signal size now = (none, st) := by
  unfold addPosition
  rcases h with h | h
  · by_cases hg : cfg.maxPositions ≤ st.positions.length
    · rw [if_pos hg]
    · rw [if_neg hg, if_pos h]
  · rw [if_pos h]

/-- A state holding three live positions for BTCUSDT. -/
noncomputable def stThree : EngineState :=
  ⟨[("a", posLong), ("b", posLong), ("c", posLong)], fun _ => []⟩

/-- Witness for C4: a fourth BTCUSDT position is rejected and the state is
returned unchanged. -/
theorem addPosition_rejects_at_caps_witness :
    addPosition defaultTradingConfig stThree sigBuy 1 7 = (none, stThree) :=
  addPosition_rejects_at_caps defaultTradingConfig stThree sigBuy 1 7
    (Or.inl (by decide))

/-! ## C9: a non-buy signal opens a short position -/

/-- C9: every accepted `addPosition` call whose signal action is not `buy` —
including `hold` — appends a position whose side is `short` (the signal is
not rejected on account of its action). -/
theorem addPosition_nonbuy_short (cfg : TradingConfig) (st : EngineState)
    (signal : TradingSignal) (size : ℚ) (now : ℕ)
    (hglobal : st.positions.length < cfg.maxPositions)
    (hsym : (st.positions.filter fun e => e.2.symbol = signal.symbol).length < 3)
    (haction : signal.action ≠ TradeAction.buy) :
    (addPosition cfg st signal size now).1 = some (mkPosition cfg st signal size now).id ∧
      (addPosition cfg st signal size now).2.positions =
        st.positions ++
          [((mkPosition cfg st signal size now).id, mkPosition cfg st signal size now)] ∧
      (mkPosition cfg st signal size now).side = Side.short := by
  unfold addPosition
  rw [if_neg (by omega), if_neg (by omega)]
  refine ⟨rfl, rfl, ?_⟩
  unfold mkPosition
  dsimp only
  rw [if_neg haction]

/-- Witness for C9: a `hold` signal on a fresh engine is accepted and opens a
short position. -/
theorem addPosition_nonbuy_short_witness :
    (addPosition defaultTradingConfig emptyEngine sigHold 1 0).1 =
        some (mkPosition defaultTradingConfig emptyEngine sigHold 1 0).id ∧
      (addPosition defaultTradingConfig emptyEngine sigHold 1 0).2.positions =
        emptyEngine.positions ++
          [((mkPosition defaultTradingConfig emptyEngine sigHold 1 0).id,
            mkPosition defaultTradingConfig emptyEngine sigHold 1 0)] ∧
      (mkPosition defaultTradingConfig emptyEngine sigHold 1 0).side = Side.short :=
  addPosition_nonbuy_short defaultTradingConfig emptyEngine sigHold 1 0
    (by decide) (by decide) (by decide)

/-! ## Lemmas about the updatePositions loop -/

/-- The per-position loop body never changes a position's key. -/
lemma positionStep_fst {cfg : TradingConfig} {prices : String → Option ℚ} {now : ℕ}
    {e r : String × Position} (h : positionStep cfg prices now e = some r) :
    r.1 = e.1 := by
  unfold positionStep at h
  rcases hm : prices e.2.symbol with _ | pr
  · rw [hm] at h
    injection h with h1
    rw [← h1]
  · rw [hm] at h
    dsimp only at h
    split_ifs at h with h0 hage hexit
    · injection h with h1; rw [← h1]
    · injection h with h1; rw [← h1]
    · injection h with h1; rw [← h1]

/-- The drawdown field of the ratchet step. -/
lemma updateTrailingStop_mdd (cfg : TradingConfig) (q : Position) :
    (updateTrailingStop cfg q).maxDrawdownFromPeak = q.maxDrawdownFromPeak := by
  unfold updateTrailingStop
  rcases hs : q.side
  · dsimp only
    split_ifs <;> rfl
  · dsimp only
    split_ifs <;> rfl

/-- One `updatePosition` call only moves `maxDrawdownFromPeak` up, and never
beyond the larger of its old value and the 5.0 clamp. -/
lemma updatePosition_mdd (cfg : TradingConfig) (p : Position) (pr : ℚ) (now : ℕ) :
    p.maxDrawdownFromPeak ≤ (updatePosition cfg p pr now).maxDrawdownFromPeak ∧
      (updatePosition cfg p pr now).maxDrawdownFromPeak ≤ max p.maxDrawdownFromPeak 5 := by
  unfold updatePosition
  rw [updateTrailingStop_mdd]
  dsimp only
  exact ⟨le_max_left _ _, max_le_max (le_refl _) (min_le_right _ _)⟩

/-- The loop body only moves a surviving position's drawdown up and keeps it
at or below 5 when it was. -/
lemma positionStep_mdd {cfg : TradingConfig} {prices : String → Option ℚ} {now : ℕ}
    {e r : String × Position} (h : positionStep cfg prices now e = some r) :
    e.2.maxDrawdownFromPeak ≤ r.2.maxDrawdownFromPeak ∧
      (e.2.maxDrawdownFromPeak ≤ 5 → r.2.maxDrawdownFromPeak ≤ 5) := by
  unfold positionStep at h
  rcases hm : prices e.2.symbol with _ | pr
  · rw [hm] at h
    injection h with h1
    rw [← h1]
    exact ⟨le_refl _, fun h5 => h5⟩
  · rw [hm] at h
    dsimp only at h
    have key : ∀ hr : (e.1, updatePosition cfg e.2 pr now) = r,
        e.2.maxDrawdownFromPeak ≤ r.2.maxDrawdownFromPeak ∧
          (e.2.maxDrawdownFromPeak ≤ 5 → r.2.maxDrawdownFromPeak ≤ 5) := by
      intro hr
      rw [← hr]
      obtain ⟨hle, hub⟩ := updatePosition_mdd cfg e.2 pr now
      refine ⟨hle, fun h5 => ?_⟩
      calc (updatePosition cfg e.2 pr now).maxDrawdownFromPeak
          ≤ max e.2.maxDrawdownFromPeak 5 := hub
        _ ≤ 5 := max_le h5 (le_refl _)
    split_ifs at h with h0 hage hexit
    · injection h with h1
      rw [← h1]
      exact ⟨le_refl _, fun h5 => h5⟩
    · exact key (by injection h)
    · exact key (by injection h)

/-- The keys surviving one `updatePositions` pass form a sublist of the
original keys. -/
lemma positionStep_keys_sublist (cfg : TradingConfig) (prices : String → Option ℚ)
    (now : ℕ) : ∀ l : List (String × Position),
    ((l.filterMap (positionStep cfg prices now)).map Prod.fst).Sublist (l.map Prod.fst) := by
  intro l
  induction l with
  | nil => simp
  | cons e t ih =>
    rw [List.filterMap_cons]
    rcases hs : positionStep cfg prices now e with _ | r
    · exact (List.map_cons Prod.fst e t) ▸ ih.cons e.1
    · rw [List.map_cons, List.map_cons, positionStep_fst hs]
      exact ih.cons₂ e.1

/-- A successful lookup means the key occurs in the list. -/
lemma lookupId_mem : ∀ {l : List (String × Position)} {id : String} {p : Position},
    lookupId id l = some p → id ∈ l.map Prod.fst := by
  intro l
  induction l with
  | nil => intro id p h; cases h
  | cons e t ih =>
    intro id p h
    rw [lookupId] at h
    by_cases he : e.1 = id
    · rw [List.map_cons, he]
      exact List.mem_cons_self _ _
    · rw [if_neg he] at h
      exact List.map_cons Prod.fst e t ▸ List.mem_cons_of_mem _ (ih h)

/-- Pulling a post-pass lookup back through one `updatePositions` pass (the
keys must be distinct, as they are for a JavaScript `Map`). -/
lemma lookupId_pass {cfg : TradingConfig} {prices : String → Option ℚ} {now : ℕ} :
    ∀ {l : List (String × Position)}, (l.map Prod.fst).Nodup →
    ∀ {id : String} {p2 : Position},
      lookupId id (l.filterMap (positionStep cfg prices now)) = some p2 →
      ∃ p1, lookupId id l = some p1 ∧
        p1.maxDrawdownFromPeak ≤ p2.maxDrawdownFromPeak ∧
        (p1.maxDrawdownFromPeak ≤ 5 → p2.maxDrawdownFromPeak ≤ 5) := by
  intro l
  induction l with
  | nil => intro _ id p2 h; cases h
  | cons e t ih =>
    intro hnd id p2 h
    rw [List.map_cons, List.nodup_cons] at hnd
    obtain ⟨hee, hndt⟩ := hnd
    rw [List.filterMap_cons] at h
    by_cases he : e.1 = id
    · rcases hs : positionStep cfg prices now e with _ | r
      · rw [hs] at h
        obtain ⟨p1, hp1, _⟩ := ih hndt h
        exact absurd (he ▸ lookupId_mem hp1) hee
      · rw [hs, lookupId, positionStep_fst hs, if_pos he] at h
        injection h with h1
        refine ⟨e.2, ?_, h1 ▸ positionStep_mdd hs⟩
        rw [lookupId, if_pos he]
    · rcases hs : positionStep cfg prices now e with _ | r
      · rw [hs] at h
        obtain ⟨p1, hp1, hrel⟩ := ih hndt h
        exact ⟨p1, by rw [lookupId, if_neg he]; exact hp1, hrel⟩
      · rw [hs, lookupId] at h
        rw [positionStep_fst hs, if_neg he] at h
        obtain ⟨p1, hp1, hrel⟩ := ih hndt h
        exact ⟨p1, by rw [lookupId, if_neg he]; exact hp1, hrel⟩

/-- Key distinctness survives an `updatePositions` pass. -/
lemma updatePositions_nodup {cfg : TradingConfig} {prices : String → Option ℚ}
    {now : ℕ} {st : EngineState} (hnd : (st.positions.map Prod.fst).Nodup) :
    ((updatePositions cfg st prices now).positions.map Prod.fst).Nodup :=
  hnd.sublist (positionStep_keys_sublist cfg prices now st.positions)

/-- Pulling a lookup back through a whole sequence of `updatePositions`
calls. -/
lemma lookupId_applyUpdates {cfg : TradingConfig} :
    ∀ (l : List ((String → Option ℚ) × ℕ)) (st : EngineState),
      (st.positions.map Prod.fst).Nodup →
      ∀ {id : String} {p2 : Position},
        lookupId id (applyUpdates cfg st l).positions = some p2 →
        ∃ p1, lookupId id st.positions = some p1 ∧
          p1.maxDrawdownFromPeak ≤ p2.maxDrawdownFromPeak ∧
          (p1.maxDrawdownFromPeak ≤ 5 → p2.maxDrawdownFromPeak ≤ 5) := by
  intro l
  induction l with
  | nil => intro st _ id p2 h; exact ⟨p2, h, le_refl _, fun h5 => h5⟩
  | cons u rest ih =>
    intro st hnd id p2 h
    have h2 := ih (updatePositions cfg st u.1 u.2) (updatePositions_nodup hnd) h
    obtain ⟨q, hq, hq1, hq2⟩ := h2
    obtain ⟨p1, hp1, hr1, hr2⟩ := lookupId_pass hnd hq
    exact ⟨p1, hp1, le_trans hr1 hq1, fun h5 => hq2 (hr2 h5)⟩

/-! ## C1: drawdown monotonicity and clamp -/

/-- C1: across any sequence of `updatePositions` calls, a position that is
live before and after has a `maxDrawdownFromPeak` that never decreased, and
that stays at or below the 5.0 clamp whenever it started there (as it does at
creation, where `addPosition` sets it to 0). -/
theorem maxDrawdown_monotone_bounded (cfg : TradingConfig) (st : EngineState)
    (l : List ((String → Option ℚ) × ℕ)) (id : String) (p p2 : Position)
    (hnd : (st.positions.map Prod.fst).Nodup)
    (h0 : lookupId id st.positions = some p)
    (h1 : lookupId id (applyUpdates cfg st l).positions = some p2) :
    p.maxDrawdownFromPeak ≤ p2.maxDrawdownFromPeak ∧
      (p.maxDrawdownFromPeak ≤ 5 → p2.maxDrawdownFromPeak ≤ 5) := by
  obtain ⟨q, hq, hrel⟩ := lookupId_applyUpdates l st hnd h1
  rw [h0] at hq
  injection hq with hq
  rw [hq]
  exact hrel

/-- The price map used by the drawdown witness. -/
def pricesBtc105 : String → Option ℚ := fun s => if s = "BTCUSDT" then some 105 else none

/-- A one-position engine state. -/
noncomputable def stOne : EngineState := ⟨[(posLong.id, posLong)], fun _ => []⟩

/-- The witness position after one tick at price 105. -/
noncomputable def posLongAfter : Position :=
  updatePosition defaultTradingConfig posLong 105 5000

/-- `updatePosition` keeps the entry timestamp. -/
lemma updateTrailingStop_entryTime (cfg : TradingConfig) (q : Position) :
    (updateTrailingStop cfg q).entryTime = q.entryTime := by
  unfold updateTrailingStop
  rcases hs : q.side
  · dsimp only
    split_ifs <;> rfl
  · dsimp only
    split_ifs <;> rfl

/-- `updatePosition` keeps the entry timestamp. -/
lemma updatePosition_entryTime (cfg : TradingConfig) (p : Position) (pr : ℚ) (now : ℕ) :
    (updatePosition cfg p pr now).entryTime = p.entryTime := by
  unfold updatePosition
  rw [updateTrailingStop_entryTime]

/-- On the witness state, the single tick keeps the position live and turns
it into `posLongAfter`. -/
lemma stOne_tick :
    lookupId posLong.id
        (applyUpdates defaultTradingConfig stOne [(pricesBtc105, 5000)]).positions =
      some posLongAfter := by
  have hstep : positionStep defaultTradingConfig pricesBtc105 5000 (posLong.id, posLong) =
      some (posLong.id, posLongAfter) := by
    unfold positionStep
    rw [show pricesBtc105 posLong.symbol = some 105 from rfl]
    dsimp only
    rw [if_neg (by norm_num), if_pos]
    · rfl
    · rw [updatePosition_entryTime]
      decide
  show lookupId posLong.id
      ((stOne.positions.filterMap
        (positionStep defaultTradingConfig pricesBtc105 5000))) = some posLongAfter
  rw [show stOne.positions = [(posLong.id, posLong)] from rfl]
  rw [List.filterMap_cons, hstep]
  rw [List.filterMap_nil, lookupId, if_pos rfl]

/-- Witness for C1: one concrete tick on a concrete long position. -/
theorem maxDrawdown_monotone_bounded_witness :
    posLong.maxDrawdownFromPeak ≤ posLongAfter.maxDrawdownFromPeak ∧
      (posLong.maxDrawdownFromPeak ≤ 5 → posLongAfter.maxDrawdownFromPeak ≤ 5) :=
  maxDrawdown_monotone_bounded defaultTradingConfig stOne [(pricesBtc105, 5000)]
    posLong.id posLong posLongAfter (by decide) rfl stOne_tick

/-! ## C10: positions without a fresh price are untouched -/

/-- C10: a live position whose symbol has no entry in the price map (or the
falsy price 0) survives `updatePositions` with every field unchanged: it is
neither updated nor exit-evaluated. -/
theorem updatePositions_missingPrice_frame (cfg : TradingConfig) (st : EngineState)
    (prices : String → Option ℚ) (now : ℕ) (id : String) (p : Position)
    (hp : lookupId id st.positions = some p)
    (hmiss : prices p.symbol = none ∨ prices p.symbol = some 0) :
    lookupId id (updatePositions cfg st prices now).positions = some p := by
  have main : ∀ l : List (String × Position), lookupId id l = some p →
      lookupId id (l.filterMap (positionStep cfg prices now)) = some p := by
    intro l
    induction l with
    | nil => intro hl; cases hl
    | cons e t ih =>
      intro hl
      rw [lookupId] at hl
      rw [List.filterMap_cons]
      by_cases he : e.1 = id
      · rw [if_pos he] at hl
        injection hl with hl
        have hskip : positionStep cfg prices now e = some e := by
          unfold positionStep
          rw [hl]
          rcases hmiss with hm | hm
          · rw [hm]
          · rw [hm]
            dsimp only
            rw [if_pos rfl]
        rw [hskip, lookupId, if_pos he, hl]
      · rw [if_neg he] at hl
        rcases hs : positionStep cfg prices now e with _ | r
        · exact ih hl
        · rw [lookupId, positionStep_fst hs, if_neg he]
          exact ih hl
  exact main st.positions hp

/-- A concrete price map with no BTCUSDT entry. -/
def pricesNone : String → Option ℚ := fun _ => none

/-- Witness for C10: with an empty price map the concrete position is
returned untouched. -/
theorem updatePositions_missingPrice_frame_witness :
    lookupId posLong.id
        (updatePositions defaultTradingConfig stOne pricesNone 5000).positions =
      some posLong :=
  updatePositions_missingPrice_frame defaultTradingConfig stOne pricesNone 5000
    posLong.id posLong rfl (Or.inl rfl)

/-! ## C8: selectStrategy determinism under a fixed seed -/

/-- The eight bandit arms as `initializeBandits` creates them, in strategy
insertion order, with the uniform prior. -/
def initialArms : List BanditArm :=
  ["trend_following", "swing_trading", "momentum", "mean_reversion", "breakout",
    "scalping", "statistical_arbitrage", "contextual_bandits"].map
    fun id => ⟨id, 1, 1, 1, 1⟩

/-- C8: with the arm state, features and regime fixed, two runs of
`selectStrategy` over the same random stream (the same seed driving the
Beta/Gamma sampler and the epsilon-greedy draws) return the same strategy id:
all nondeterminism of the source is externalised in the stream. -/
theorem selectStrategy_deterministic (cfg : OrchConfig) (arms : List BanditArm)
    (f : FeatureSet) (regime : MarketRegime) (fuel i : ℕ) (r1 r2 : RandStream)
    (h : ∀ n, r1 n = r2 n) :
    selectStrategy cfg arms f regime r1 fuel i =
      selectStrategy cfg arms f regime r2 fuel i := by
  have he : r1 = r2 := funext h
  rw [he]

/-- The constant one-half stream. -/
def constHalf : RandStream := fun _ => 1 / 2

/-- Witness for C8 on the initial arms and a concrete seed stream. -/
theorem selectStrategy_deterministic_witness :
    selectStrategy defaultOrchConfig initialArms dummyFS dummyMarketRegime constHalf 10 0 =
      selectStrategy defaultOrchConfig initialArms dummyFS dummyMarketRegime constHalf 10 0 :=
  selectStrategy_deterministic defaultOrchConfig initialArms dummyFS dummyMarketRegime
    10 0 constHalf constHalf (fun _ => rfl)

/-! ## C6: detectRegime confidence bounds -/

/-- Ten alternating prices whose returns have variance far above 1. -/
def pricesC6 : List ℚ := [1, 100, 1, 100, 1, 100, 1, 100, 1, 100]

/-- The engine state reached by feeding those ten single-ticker updates. -/
def stC6 : FEState := feedTicks "ALTUSDT" pricesC6

/-- The features extracted on that state. -/
noncomputable def fsC6 : FeatureSet := (extractFeatures stC6 "ALTUSDT" 0).getD dummyFS

lemma fsC6_extract : extractFeatures stC6 "ALTUSDT" 0 = some fsC6 := rfl

lemma fsC6_volatility : fsC6.volatility = calculateVolatility pricesC6 := rfl

lemma returnsC6 : calculateReturns pricesC6 =
    [99, -99/100, 99, -99/100, 99, -99/100, 99, -99/100, 99] := by
  norm_num [calculateReturns, pricesC6, List.filterMap_cons]

lemma volC6_gt_one : (1 : ℝ) < calculateVolatility pricesC6 := by
  unfold calculateVolatility
  rw [if_neg (by norm_num [pricesC6])]
  unfold standardDeviationQ
  rw [returnsC6, if_neg (List.cons_ne_nil _ _)]
  rw [show (1 : ℝ) = Real.sqrt 1 from Real.sqrt_one.symm]
  apply Real.sqrt_lt_sqrt (by norm_num)
  have h : (1 : ℚ) < varianceQ [99, -99/100, 99, -99/100, 99, -99/100, 99, -99/100, 99] := by
    norm_num [varianceQ, meanQ]
  exact_mod_cast h

/-- C6 counterexample: on a reachable state with ten recorded prices,
`detectRegime` returns a regime (the volatile branch) whose confidence
exceeds 1 — the claimed bound `confidence ∈ [0,1]` fails. -/
theorem detectRegime_confidence_gt_one :
    (detectRegime stC6 "ALTUSDT" 0).isSome = true ∧
      (1 : ℝ) < ((detectRegime stC6 "ALTUSDT" 0).getD dummyMarketRegime).confidence := by
  have hvol : (1 : ℝ) < fsC6.volatility := by
    rw [fsC6_volatility]; exact volC6_gt_one
  have h07 : (0.7 : ℝ) < fsC6.volatility := lt_trans (by norm_num) hvol
  have hreg : detectRegime stC6 "ALTUSDT" 0 = some (detectRegimeFromFeatures fsC6) := by
    unfold detectRegime
    rw [fsC6_extract]
    rfl
  have hdet : detectRegimeFromFeatures fsC6 =
      ⟨RegimeType.volatile, fsC6.volatility, fsC6⟩ := by
    unfold detectRegimeFromFeatures
    rw [if_pos h07]
  rw [hreg, hdet]
  exact ⟨rfl, hvol⟩

lemma calculateMeanReversion_le_one (prices : List ℚ) :
    calculateMeanReversion prices ≤ 1 := by
  unfold calculateMeanReversion
  dsimp only
  split_ifs with h
  · norm_num
  · exact min_le_right _ _

lemma calculateVolatility_nonneg (prices : List ℚ) : 0 ≤ calculateVolatility prices := by
  unfold calculateVolatility
  split_ifs with h
  · exact le_refl 0
  · unfold standardDeviationQ
    split_ifs with h2
    · exact le_refl 0
    · exact Real.sqrt_nonneg _

/-- C6 amended: for every extracted feature set, the regime the decision list
returns has a nonnegative confidence, and the confidence is at most 1 in the
ranging and stable branches; the volatile branch (confidence = volatility)
and the trending branch (confidence = |trend|) are not bounded by 1. -/
theorem detectRegime_confidence_amended (st : FEState) (symbol : String) (now : ℕ)
    (f : FeatureSet) (h : extractFeatures st symbol now = some f) :
    0 ≤ (detectRegimeFromFeatures f).confidence ∧
      ((detectRegimeFromFeatures f).type = RegimeType.ranging ∨
          (detectRegimeFromFeatures f).type = RegimeType.stable →
        (detectRegimeFromFeatures f).confidence ≤ 1) := by
  have hpair : f.meanReversion = calculateMeanReversion ((st.priceHistory symbol).getD []) ∧
      f.volatility = calculateVolatility ((st.priceHistory symbol).getD []) := by
    unfold extractFeatures at h
    dsimp only at h
    split_ifs at h with hlen
    rw [Option.some_inj] at h
    rw [← h]
    exact ⟨rfl, rfl⟩
  have hmr : f.meanReversion ≤ 1 := by
    rw [hpair.1]; exact calculateMeanReversion_le_one _
  have hvolnn : 0 ≤ f.volatility := by
    rw [hpair.2]; exact calculateVolatility_nonneg _
  unfold detectRegimeFromFeatures
  split_ifs with h1 h2 h3
  · dsimp only
    refine ⟨hvolnn, fun hc => ?_⟩
    rcases hc with hc | hc <;> cases hc
  · dsimp only
    refine ⟨?_, fun hc => ?_⟩
    · exact_mod_cast abs_nonneg f.trend
    · rcases hc with hc | hc <;> cases hc
  · dsimp only
    refine ⟨?_, fun hc => ?_⟩
    · have h0 : (0 : ℚ) ≤ f.meanReversion := le_of_lt (lt_trans (by norm_num) h3)
      exact_mod_cast h0
    · exact_mod_cast hmr
  · dsimp only
    exact ⟨by norm_num, fun hc => by norm_num⟩

/-- Ten identical prices: a reachable state whose regime is `stable`. -/
def pricesFlat : List ℚ := [100, 100, 100, 100, 100, 100, 100, 100, 100, 100]

/-- The engine state reached by feeding the flat prices. -/
def stFlat : FEState := feedTicks "BTCUSDT" pricesFlat

/-- The features extracted on the flat state. -/
noncomputable def fsFlat : FeatureSet := (extractFeatures stFlat "BTCUSDT" 0).getD dummyFS

/-- Witness for the amended C6 on a concrete reachable state. -/
theorem detectRegime_confidence_amended_witness :
    0 ≤ (detectRegimeFromFeatures fsFlat).confidence ∧
      ((detectRegimeFromFeatures fsFlat).type = RegimeType.ranging ∨
          (detectRegimeFromFeatures fsFlat).type = RegimeType.stable →
        (detectRegimeFromFeatures fsFlat).confidence ≤ 1) :=
  detectRegime_confidence_amended stFlat "BTCUSDT" 0 fsFlat rfl

end AlphaLock
